import Mathlib

/-!
Shallow embedding of `src/Datasets/Geekbench/scrape.py`, a single-file
scraper that turns Geekbench listing pages (legacy v4 CPU tables, v6 CPU
cards, v6 GPU-compute cards) into flat CSV rows.

HTML elements are modelled at the granularity the code inspects them:
each BeautifulSoup query result (`find`, `select_one`, `select`) becomes a
field of a structure, an absent element becomes `none`, and an element's
`get_text(" ", strip=True)` output becomes a `String`.  Python `str` is
`String`, `int` is `Nat` (all integers parsed by the code come from `\d+`),
`float` is `ℚ` (the code only builds floats from decimal literals), and
`None` is `Option.none`.  Character classes (`\s`, `\d`, `str.isdigit`,
`str.strip`) are modelled over ASCII.
-/

/-- ASCII whitespace, modelling Python's `\s` and `str.strip`. -/
def isSpace (c : Char) : Bool :=
  c = ' ' || c = '\t' || c = '\n' || c = '\r' || c = '\x0b' || c = '\x0c'

/-- ASCII decimal digit, modelling `\d` and `str.isdigit`. -/
def isDigit (c : Char) : Bool :=
  '0' ≤ c && c ≤ '9'

/-- Decimal value of a digit string (the `int(...)` of an all-digit string). -/
def decVal (l : List Char) : Nat :=
  l.foldl (fun a c => 10 * a + (c.toNat - '0'.toNat)) 0

/-- Python `str.strip()`: drop leading and trailing whitespace. -/
def pyStrip (l : List Char) : List Char :=
  ((l.dropWhile isSpace).reverse.dropWhile isSpace).reverse

/-- Python `WS_RE.sub(" ", s)`: replace every maximal whitespace run by one space.
The boolean argument records whether the previous character was whitespace. -/
def collapseWS : Bool → List Char → List Char
  | _, [] => []
  | prev, c :: rest =>
    if isSpace c then
      if prev then collapseWS true rest else ' ' :: collapseWS true rest
    else c :: collapseWS false rest

/-- Function `oneline(s)` from scrape.py: `WS_RE.sub(" ", s).strip()`. -/
def oneline (s : String) : String :=
  ⟨pyStrip (collapseWS false s.data)⟩

/-- The local `to_int` of `parse_v4_row`: strip commas and whitespace, accept
only an all-digit remainder (`re.fullmatch(r"\d+", s)`), else `None`. -/
def to_int (s : String) : Option Nat :=
  let t := pyStrip (s.data.filter (fun c => c != ','))
  if !t.isEmpty && t.all isDigit then some (decVal t) else none

/-- Module-level `_to_int` (identical body to the local `to_int`). -/
def _to_int (s : String) : Option Nat :=
  let t := pyStrip (s.data.filter (fun c => c != ','))
  if !t.isEmpty && t.all isDigit then some (decVal t) else none

/-- Function `_text(el)`: `oneline(el.get_text(" ", strip=True)) if el else ""`.
The element is modelled by its `get_text` output. -/
def _text : Option String → String
  | none => ""
  | some t => oneline t

/-! The regex `MHZ_RE = re.compile(r"(\d+(?:\.\d+)?)\s*MHz", re.I)`.

The matcher below is the deterministic maximal-munch reading of the regex:
greedy `\d+`, greedy optional `\.\d+`, greedy `\s*`, then the literal `MHz`
case-insensitively.  Backtracking never changes the outcome for this
pattern, because every character class in it is disjoint from the
characters that may follow it (a digit is neither `.`, whitespace nor
`m`/`M`), which the equivalence proofs below make precise. -/

/-- The greedy parse of capture group 1 (`\d+(?:\.\d+)?`) at the head of
`cs`: maximal digit run, then a fractional part only when a dot is
directly followed by at least one digit.  Returns (group, remainder). -/
def mhzGroup (cs : List Char) : List Char × List Char :=
  let d := cs.takeWhile isDigit
  match cs.dropWhile isDigit with
  | '.' :: r2 =>
    if (r2.takeWhile isDigit).isEmpty then (d, cs.dropWhile isDigit)
    else (d ++ '.' :: r2.takeWhile isDigit, r2.dropWhile isDigit)
  | r1 => (d, r1)

/-- Whether `\s*MHz` (case-insensitive) matches at the head of `rest`. -/
def mhzTail (rest : List Char) : Bool :=
  match rest.dropWhile isSpace with
  | c1 :: c2 :: c3 :: _ =>
    (c1 = 'M' || c1 = 'm') && (c2 = 'H' || c2 = 'h') && (c3 = 'Z' || c3 = 'z')
  | _ => false

/-- Match `MHZ_RE` anchored at the head of the list, returning capture
group 1 (the decimal number) on success.  The `\d+` must be non-empty,
hence the up-front emptiness test on the digit run. -/
def matchMHzAt (cs : List Char) : Option (List Char) :=
  if (cs.takeWhile isDigit).isEmpty then none
  else if mhzTail (mhzGroup cs).2 then some (mhzGroup cs).1 else none

/-- Function `MHZ_RE.search`: try each successive start position, leftmost first. -/
def searchMHz : List Char → Option (List Char)
  | [] => none
  | c :: rest =>
    match matchMHzAt (c :: rest) with
    | some g => some g
    | none => searchMHz rest

/-- Value `float(m.group(1))` for a group matched by `\d+(?:\.\d+)?`: exact
rational value of the decimal literal. -/
def ratOfDecimal (g : List Char) : ℚ :=
  let ip := g.takeWhile isDigit
  let fp := g.drop (ip.length + 1)
  (decVal ip : ℚ) + (decVal fp : ℚ) / (10 : ℚ) ^ fp.length

/-- The Text Normalizer's frequency extractor: `MHZ_RE.search` plus
`float` conversion of group 1 (`None` when the pattern is absent). -/
def extractFrequencyMHz (s : String) : Option ℚ :=
  (searchMHz s.data).map ratOfDecimal

/-! The regex `CORES_RE = re.compile(r"\((\d+)\s+cores?\)", re.I)`. -/

/-- Match `CORES_RE` anchored at the head, returning the core count. -/
def matchCoresAt (cs : List Char) : Option Nat :=
  match cs with
  | '(' :: r1 =>
    let d := r1.takeWhile isDigit
    if d.isEmpty then none else
    let r2 := r1.dropWhile isDigit
    let ws := r2.takeWhile isSpace
    if ws.isEmpty then none else
    match r2.dropWhile isSpace with
    | c1 :: c2 :: c3 :: c4 :: r3 =>
      if (c1 = 'C' || c1 = 'c') && (c2 = 'O' || c2 = 'o') &&
         (c3 = 'R' || c3 = 'r') && (c4 = 'E' || c4 = 'e') then
        match r3 with
        | ')' :: _ => some (decVal d)
        | s1 :: ')' :: _ => if s1 = 'S' || s1 = 's' then some (decVal d) else none
        | _ => none
      else none
    | _ => none
  | _ => none

/-- Function `CORES_RE.search`. -/
def searchCores : List Char → Option Nat
  | [] => none
  | c :: rest =>
    match matchCoresAt (c :: rest) with
    | some n => some n
    | none => searchCores rest

/-- The Text Normalizer's core-count extractor. -/
def extractCoreCount (s : String) : Option Nat :=
  searchCores s.data

/-! ## Pagination detector -/

/-- One fetched listing page, at the granularity scrape.py queries it:
`ul.pagination` with its `<a>` texts, `table.geekbench3-index` with its
`<tr>`s (for the v4 parser), and `.list-col .list-col-inner` blocks (for
the v6 parsers).  The row/block types are declared below. -/
structure Anchor where
  text : String
  href : Option String
deriving DecidableEq, Repr

/-- One `<td>` of a v4 table row, via the queries `parse_v4_row` makes:
its `get_text(" ", strip=True)`, its first `<a>`, its first `<span>`'s
text, and whether `find("span", class_="timestamp-to-local-min")` hits. -/
structure Cell where
  text : String
  firstA : Option Anchor
  firstSpanText : Option String
  hasTimestampSpan : Bool
deriving DecidableEq, Repr

/-- One `<tr>`: its `find_all("td")` result. -/
structure Row where
  tds : List Cell
deriving DecidableEq, Repr

/-- An anchor obtained through an `a[href^=...]` attribute selector, whose
`href` is guaranteed present by the selector. -/
structure HrefAnchor where
  text : String
  href : String
deriving DecidableEq, Repr

/-- The `.col-12.col-lg-4` system column of a v6 card. -/
structure SysCol where
  cpuA : Option HrefAnchor
  computeA : Option HrefAnchor
  model : Option String
deriving DecidableEq, Repr

/-- One `.col-6.col-md-3.col-lg-2` statistic column of a v6 card: its
label element (`.list-col-subtitle, .list-col-subtitle-score`), its value
elements, and its `a[href^='/user/']` text.  Elements are modelled by
their `get_text(" ", strip=True)` output, `none` when absent. -/
structure StatCol where
  label : Option String
  textVal : Option String
  scoreVal : Option String
  userA : Option String
deriving DecidableEq, Repr

/-- One `.list-col .list-col-inner` card block. -/
structure InnerBlock where
  sysCol : Option SysCol
  statCols : List StatCol
deriving DecidableEq, Repr

/-- A fetched document. -/
structure Doc where
  paginationLinks : Option (List String)
  v4table : Option (List Row)
  innerBlocks : List InnerBlock
deriving DecidableEq, Repr

/-- The numeric reading of one pagination link label:
`t = (a.get_text() or "").strip(); if t.isdigit(): int(t)`. -/
def labelNum (t : String) : Option Nat :=
  let t' := pyStrip t.data
  if !t'.isEmpty && t'.all isDigit then some (decVal t') else none

/-- Function `detect_max_pages(soup)`. -/
def detect_max_pages (soup : Doc) : Nat :=
  match soup.paginationLinks with
  | none => 1
  | some links =>
    let nums := links.filterMap labelNum
    match nums.max? with
    | some m => m
    | none => 1

/-! ## Legacy CPU parser (v4) -/

/-- A benchmark record of the CPU field set (the dict built by
`parse_v4_row` and `parse_v6_cpu_block`; field order follows the dict
literal). -/
structure RecordCPU where
  uploaded : String
  system : String
  cpu_details : String
  frequency_mhz : Option ℚ
  cores : Option Nat
  platform : String
  user : String
  single_core : Option Nat
  multi_core : Option Nat
  result_url : String
  schema : String
deriving DecidableEq, Repr

/-- Function `parse_v4_row(tr)`. -/
def parse_v4_row (tr : Row) : Option RecordCPU :=
  match tr.tds with
  | [td0, td1, td2, td3, td4, td5] =>
    if !td0.hasTimestampSpan then none else
    let uploaded := oneline td0.text
    let system := oneline (match td1.firstA with | some a => a.text | none => td1.text)
    let dmc : String × Option ℚ × Option Nat :=
      match td1.firstSpanText with
      | some sp =>
        let details_text := oneline sp
        (details_text, (searchMHz details_text.data).map ratOfDecimal,
          searchCores details_text.data)
      | none => ("", none, none)
    let platform := oneline td2.text
    let user := match td3.firstA with | some a => oneline a.text | none => ""
    let single := to_int (oneline td4.text)
    let multi := to_int (oneline td5.text)
    some {
      uploaded := uploaded, system := system, cpu_details := dmc.1,
      frequency_mhz := dmc.2.1, cores := dmc.2.2, platform := platform,
      user := user, single_core := single, multi_core := multi,
      result_url := (match td1.firstA with
        | some a => match a.href with | some h => h | none => ""
        | none => ""),
      schema := "v4" }
  | _ => none

/-- Function `parse_v4_page(soup)`. -/
def parse_v4_page (soup : Doc) : List RecordCPU :=
  match soup.v4table with
  | none => []
  | some trs => trs.filterMap parse_v4_row

/-! ## Card CPU parser (v6) -/

/-- The `data` dict literal at the top of `parse_v6_cpu_block`. -/
def v6CpuInit : RecordCPU :=
  { uploaded := "", system := "", cpu_details := "", frequency_mhz := none,
    cores := none, platform := "", user := "", single_core := none,
    multi_core := none, result_url := "", schema := "v6" }

/-- The body of the `for col in inner.select(".col-6.col-md-3.col-lg-2")`
loop of `parse_v6_cpu_block`, as a fold step. -/
def v6_cpu_stat_step (data : RecordCPU) (col : StatCol) : RecordCPU :=
  match col.label with
  | none => data
  | some lblEl =>
    let key := _text (some lblEl)
    if key = "Uploaded" || key = "Platform" then
      let v := _text col.textVal
      if key = "Uploaded" then
        let data' := { data with uploaded := v }
        match col.userA with
        | some u => { data' with user := _text (some u) }
        | none => data'
      else { data with platform := v }
    else if key = "Single-Core Score" || key = "Multi-Core Score" then
      let iv := _to_int (_text col.scoreVal)
      if key = "Single-Core Score" then { data with single_core := iv }
      else { data with multi_core := iv }
    else data

/-- The system-column part of `parse_v6_cpu_block` (the
`sys_col = inner.select_one(".col-12.col-lg-4")` block). -/
def v6_cpu_sys (data : RecordCPU) (sysCol : Option SysCol) : RecordCPU :=
  match sysCol with
  | none => data
  | some sc =>
    let d1 :=
      match sc.cpuA with
      | some a => { data with system := _text (some a.text), result_url := a.href }
      | none => data
    match sc.model with
    | some mEl =>
      let model_text := _text (some mEl)
      { d1 with cpu_details := model_text,
                frequency_mhz := (searchMHz model_text.data).map ratOfDecimal,
                cores := searchCores model_text.data }
    | none => d1

/-- The final validity check of `parse_v6_cpu_block` (`if not
data["System"] and not data["Result URL"]: return None`; empty strings
are falsy). -/
def emitCPU (data : RecordCPU) : Option RecordCPU :=
  if data.system = "" && data.result_url = "" then none else some data

/-- Function `parse_v6_cpu_block(inner)`. -/
def parse_v6_cpu_block (inner : InnerBlock) : Option RecordCPU :=
  emitCPU (inner.statCols.foldl v6_cpu_stat_step (v6_cpu_sys v6CpuInit inner.sysCol))

/-- Function `parse_v6_cpu_page(soup)`. -/
def parse_v6_cpu_page (soup : Doc) : List RecordCPU :=
  soup.innerBlocks.filterMap parse_v6_cpu_block

/-! ## Card GPU-compute parser (v6 compute) -/

/-- A benchmark record of the GPU field set (the dict built by
`parse_v6_compute_block`). -/
structure RecordGPU where
  uploaded : String
  system : String
  cpu_details : String
  frequency_mhz : Option ℚ
  cores : Option Nat
  platform : String
  api : String
  score_label : String
  compute_score : Option Nat
  result_url : String
  schema : String
deriving DecidableEq, Repr

/-- The `data` dict literal at the top of `parse_v6_compute_block`. -/
def v6ComputeInit : RecordGPU :=
  { uploaded := "", system := "", cpu_details := "", frequency_mhz := none,
    cores := none, platform := "", api := "", score_label := "",
    compute_score := none, result_url := "", schema := "v6-compute" }

/-- Holds when `p` is a suffix of `l` (Python `str.endswith`, on character lists). -/
def isSuffixCh (p l : List Char) : Bool :=
  l.reverse.take p.length = p.reverse

/-- The body of the statistic-column loop of `parse_v6_compute_block`. -/
def v6_compute_stat_step (data : RecordGPU) (col : StatCol) : RecordGPU :=
  match col.label with
  | none => data
  | some lblEl =>
    let label := _text (some lblEl)
    if label = "Uploaded" || label = "Platform" || label = "API" then
      let v := _text col.textVal
      if label = "API" then { data with api := v }
      else if label = "Uploaded" then { data with uploaded := v }
      else { data with platform := v }
    else if isSuffixCh "Score".data label.data then
      { data with score_label := label,
                  compute_score := _to_int (_text col.scoreVal) }
    else data

/-- The system-column part of `parse_v6_compute_block`. -/
def v6_compute_sys (data : RecordGPU) (sysCol : Option SysCol) : RecordGPU :=
  match sysCol with
  | none => data
  | some sc =>
    let d1 :=
      match sc.computeA with
      | some a => { data with system := _text (some a.text), result_url := a.href }
      | none => data
    match sc.model with
    | some mEl =>
      let model_text := _text (some mEl)
      { d1 with cpu_details := model_text,
                frequency_mhz := (searchMHz model_text.data).map ratOfDecimal,
                cores := searchCores model_text.data }
    | none => d1

/-- The final validity check of `parse_v6_compute_block`. -/
def emitGPU (data : RecordGPU) : Option RecordGPU :=
  if data.system = "" && data.result_url = "" then none else some data

/-- Function `parse_v6_compute_block(inner)`. -/
def parse_v6_compute_block (inner : InnerBlock) : Option RecordGPU :=
  emitGPU (inner.statCols.foldl v6_compute_stat_step
    (v6_compute_sys v6ComputeInit inner.sysCol))

/-- Function `parse_v6_compute_page(soup)`. -/
def parse_v6_compute_page (soup : Doc) : List RecordGPU :=
  soup.innerBlocks.filterMap parse_v6_compute_block

/-! ## Page fetcher -/

/-- Outcome of `get_soup`: a parsed document (modelled by the response
body), a raised `requests.HTTPError` carrying a status, or Python's
implicit `None` return (reaching the end of the function body). -/
inductive FetchResult where
  | doc (body : String)
  | raised (status : Nat)
  | pyNone
deriving DecidableEq, Repr

/-- Function `get_soup(session, url)`: the `for attempt in range(3)` loop, with the
i-th `session.get` call returning `resp i` = (status_code, text).  On 200
the body is parsed and returned; after three non-200 responses,
`r.raise_for_status()` raises exactly when the final status is a 4xx/5xx
(`requests` raises `HTTPError` only for `400 <= status < 600`), and
otherwise the function falls through and returns `None`. -/
def get_soup (resp : Nat → Nat × String) : FetchResult :=
  if (resp 0).1 = 200 then .doc (resp 0).2
  else if (resp 1).1 = 200 then .doc (resp 1).2
  else if (resp 2).1 = 200 then .doc (resp 2).2
  else if 400 ≤ (resp 2).1 && (resp 2).1 < 600 then .raised (resp 2).1
  else .pyNone

/-! ## Scrape driver -/

/-- Holds when `p` occurs as a contiguous substring of `l` (Python `in` on str). -/
def containsSub (p : List Char) : List Char → Bool
  | [] => decide (p = [])
  | c :: rest => p.isPrefixOf (c :: rest) || containsSub p rest

/-- Function `is_v6_cpu(url)`. -/
def is_v6_cpu (url : String) : Bool := containsSub "/v6/cpu".data url.data

/-- Function `is_v6_compute(url)`. -/
def is_v6_compute (url : String) : Bool := containsSub "/v6/compute".data url.data

/-- Function `is_v4_cpu(url)`. -/
def is_v4_cpu (url : String) : Bool := containsSub "/v4/cpu".data url.data

/-- Function `page_url(base, page)`. -/
def page_url (base : String) (page : Nat) : String :=
  base ++ "?page=" ++ toString page

/-- The mode-selection chain at the top of `scrape` (`v6-compute` checked
first, then `v6-cpu`, then `v4-cpu`, else `SystemExit`). -/
def modeOf (base : String) : Option String :=
  if is_v6_compute base then some "v6-compute"
  else if is_v6_cpu base then some "v6-cpu"
  else if is_v4_cpu base then some "v4-cpu"
  else none

/-- A CSV cell value: Python str, int, float or None. -/
inductive Val where
  | s (x : String)
  | i (x : Nat)
  | f (x : ℚ)
  | null
deriving DecidableEq, Repr

/-- An `Optional[int]` dict value. -/
def optI : Option Nat → Val
  | some n => .i n
  | none => .null

/-- An `Optional[float]` dict value. -/
def optF : Option ℚ → Val
  | some q => .f q
  | none => .null

/-- The dict built by the CPU parsers, as a key/value list in literal
order. -/
def recordCPUtoKV (r : RecordCPU) : List (String × Val) :=
  [("Uploaded", .s r.uploaded), ("System", .s r.system),
   ("CPU Details", .s r.cpu_details), ("Frequency_MHz", optF r.frequency_mhz),
   ("Cores", optI r.cores), ("Platform", .s r.platform), ("User", .s r.user),
   ("Single-Core Score", optI r.single_core),
   ("Multi-Core Score", optI r.multi_core), ("Result URL", .s r.result_url),
   ("Schema", .s r.schema)]

/-- The dict built by the GPU-compute parser, as a key/value list. -/
def recordGPUtoKV (r : RecordGPU) : List (String × Val) :=
  [("Uploaded", .s r.uploaded), ("System", .s r.system),
   ("CPU Details", .s r.cpu_details), ("Frequency_MHz", optF r.frequency_mhz),
   ("Cores", optI r.cores), ("Platform", .s r.platform), ("API", .s r.api),
   ("Score Label", .s r.score_label), ("Compute Score", optI r.compute_score),
   ("Result URL", .s r.result_url), ("Schema", .s r.schema)]

/-- List `cpu_cols` from `scrape`. -/
def cpu_cols : List String :=
  ["Uploaded", "System", "CPU Details", "Frequency_MHz", "Cores", "Platform",
   "User", "Single-Core Score", "Multi-Core Score", "Result URL", "Schema"]

/-- List `gpu_cols` from `scrape`. -/
def gpu_cols : List String :=
  ["Uploaded", "System", "CPU Details", "Frequency_MHz", "Cores", "Platform",
   "API", "Score Label", "Compute Score", "Result URL", "Schema"]

/-- The per-page parser dispatch inside the scrape loop. -/
def pageRecords (mode : String) (soup : Doc) : List (List (String × Val)) :=
  if mode = "v6-compute" then (parse_v6_compute_page soup).map recordGPUtoKV
  else if mode = "v6-cpu" then (parse_v6_cpu_page soup).map recordCPUtoKV
  else (parse_v4_page soup).map recordCPUtoKV

/-- Computation `pages = max_pages if (max_pages and max_pages > 0) else detected`:
`None`, `0` and negative values are replaced by the detected count. -/
def pageCount (max_pages : Option Int) (detected : Nat) : Nat :=
  match max_pages with
  | some m => if 0 < m then m.toNat else detected
  | none => detected

/-- One pandas cell of `df[cols]` after the null-fill loop: the record's
value when the key is present, else the null placeholder (`None`/`NaN`). -/
def cellOf (r : List (String × Val)) (c : String) : Val :=
  match r.lookup c with
  | some v => v
  | none => Val.null

/-- Function `scrape(base, max_pages, out_csv, sleep_s)`.  Network and filesystem
effects are made explicit: `fetch` maps a URL to the fetched document, the
first output component is the list of URLs passed to `get_soup` in call
order, and the persisted CSV is the `(header, rows)` pair (the
`df.to_csv` payload).  `SystemExit` is the `Except.error` branch.
`time.sleep` and `print` calls have no observable data effect and are
dropped. -/
def scrape (base : String) (max_pages : Option Int) (fetch : String → Doc) :
    List String × Except String (List String × List (List Val)) :=
  let u1 := page_url base 1
  let first := fetch u1
  let detected := detect_max_pages first
  let pages := pageCount max_pages detected
  match modeOf base with
  | none =>
    ([u1], Except.error "Unsupported base URL (expect /v6/compute, /v6/cpu, or /v4/cpu).")
  | some mode =>
    let pageNums := (List.range pages).map (· + 1)
    let trace := u1 :: ((pageNums.filter (fun p => p != 1)).map (page_url base))
    let all_rows := pageNums.flatMap (fun p =>
      pageRecords mode (if p = 1 then first else fetch (page_url base p)))
    let cols := if mode = "v6-compute" then gpu_cols else cpu_cols
    (trace, Except.ok (cols, all_rows.map (fun r => cols.map (cellOf r))))

/-! ## Specification-side predicates

Declarative characterisations (existential decompositions) of the regex
behaviour, used to state C7 without mirroring the matcher's algorithm. -/

/-- Holds when `g` is a decimal-number literal in the sense of `\d+(?:\.\d+)?`. -/
def decGroupSpec (g : List Char) : Prop :=
  (g ≠ [] ∧ ∀ c ∈ g, isDigit c = true) ∨
  (∃ d f, g = d ++ '.' :: f ∧ d ≠ [] ∧ (∀ c ∈ d, isDigit c = true) ∧
    f ≠ [] ∧ (∀ c ∈ f, isDigit c = true))

/-- Case-insensitive letters of the literal `MHz`. -/
def isMHzLit (c1 c2 c3 : Char) : Prop :=
  (c1 = 'M' ∨ c1 = 'm') ∧ (c2 = 'H' ∨ c2 = 'h') ∧ (c3 = 'Z' ∨ c3 = 'z')

/-- Holds when `MHZ_RE` matches at the very start of `cs` with capture group `g`:
`cs` decomposes as the decimal number, optional whitespace, the literal
`MHz` (any case), and an arbitrary remainder. -/
def specMHzAt (cs g : List Char) : Prop :=
  ∃ ws c1 c2 c3 rest,
    cs = g ++ ws ++ c1 :: c2 :: c3 :: rest ∧
    decGroupSpec g ∧ (∀ c ∈ ws, isSpace c = true) ∧ isMHzLit c1 c2 c3

/-- A statistic column that takes the score branch of
`parse_v6_compute_block`: it has a label element whose normalised text is
outside the fixed set ("Uploaded", "Platform", "API") and ends with
"Score". -/
def isScoreCol (c : StatCol) : Bool :=
  match c.label with
  | none => false
  | some l =>
    let lbl := oneline l
    !(lbl = "Uploaded" || lbl = "Platform" || lbl = "API") &&
      isSuffixCh "Score".data lbl.data

/-! ## Concrete fixtures for witnesses and counterexamples -/

/-- An empty `<td>`. -/
def cEmpty : Cell :=
  { text := "", firstA := none, firstSpanText := none, hasTimestampSpan := false }

/-- A 6-cell v4 row whose first cell carries the timestamp marker but
whose system cell has no text and no link: `parse_v4_row` still emits a
record for it. -/
def rowNoSystem : Row :=
  { tds := [{ cEmpty with text := "t", hasTimestampSpan := true },
            cEmpty, cEmpty, cEmpty, cEmpty, cEmpty] }

/-- A fully populated 6-cell v4 row. -/
def rowFull : Row :=
  { tds := [
    { text := "Sat, 01 Jan", firstA := none, firstSpanText := none,
      hasTimestampSpan := true },
    { text := "sysname",
      firstA := some { text := "MacBook", href := some "/v4/cpu/123" },
      firstSpanText := some "Intel Core i5 @ 3200 MHz (4 cores)",
      hasTimestampSpan := false },
    { cEmpty with text := "macOS" },
    { cEmpty with firstA := some { text := "bob", href := none } },
    { cEmpty with text := "1,234" },
    { cEmpty with text := "5678" }] }

/-- A card block with a CPU result link and two labelled columns. -/
def blockCpu : InnerBlock where
  sysCol := some { cpuA := some { text := "Mac15,6", href := "/v6/cpu/777" }, computeA := none, model := some "Apple M3 Pro (12 cores)" }
  statCols := [
    { label := some "Uploaded", textVal := some "Jan 01", scoreVal := none, userA := some "alice" },
    { label := some "Single-Core Score", textVal := none, scoreVal := some "2,500", userA := none }]

/-- A compute card block with an API column and two score columns. -/
def blockCompute : InnerBlock where
  sysCol := some { cpuA := none, computeA := some { text := "GPU X", href := "/v6/compute/9" }, model := none }
  statCols := [
    { label := some "API", textVal := some "Vulkan", scoreVal := none, userA := none },
    { label := some "Metal Score", textVal := none, scoreVal := some "100", userA := none },
    { label := some "Vulkan Score", textVal := none, scoreVal := some "200", userA := none }]

/-- A document with nothing on it. -/
def emptyDoc : Doc :=
  { paginationLinks := none, v4table := none, innerBlocks := [] }

/-! ## Helper lemmas: list and character facts -/

theorem takeWhile_all_append (p : Char → Bool) (xs : List Char) (y : Char) (ys : List Char)
    (hall : ∀ x ∈ xs, p x = true) (hy : p y = false) :
    (xs ++ y :: ys).takeWhile p = xs := by
  induction xs with
  | nil => simp [List.takeWhile_cons, hy]
  | cons a t ih =>
    have ha : p a = true := hall a (by simp)
    simp only [List.cons_append, List.takeWhile_cons, ha, if_true]
    rw [ih (fun x hx => hall x (by simp [hx]))]

theorem dropWhile_all_append (p : Char → Bool) (xs : List Char) (y : Char) (ys : List Char)
    (hall : ∀ x ∈ xs, p x = true) (hy : p y = false) :
    (xs ++ y :: ys).dropWhile p = y :: ys := by
  induction xs with
  | nil => simp [List.dropWhile_cons, hy]
  | cons a t ih =>
    have ha : p a = true := hall a (by simp)
    simp only [List.cons_append, List.dropWhile_cons, ha, if_true]
    exact ih (fun x hx => hall x (by simp [hx]))

theorem isSpace_cases {c : Char} (h : isSpace c = true) :
    c = ' ' ∨ c = '\t' ∨ c = '\n' ∨ c = '\r' ∨ c = '\x0b' ∨ c = '\x0c' := by
  have h2 := h
  simp only [isSpace, Bool.or_eq_true, decide_eq_true_eq] at h2
  tauto

theorem isSpace_not_digit {c : Char} (h : isSpace c = true) : isDigit c = false := by
  rcases isSpace_cases h with h | h | h | h | h | h <;> subst h <;> decide

theorem isSpace_ne_dot {c : Char} (h : isSpace c = true) : c ≠ '.' := by
  rcases isSpace_cases h with h | h | h | h | h | h <;> subst h <;> decide

theorem mchar_not_digit {c : Char} (h : c = 'M' ∨ c = 'm') : isDigit c = false := by
  rcases h with h | h <;> subst h <;> decide

theorem mchar_not_space {c : Char} (h : c = 'M' ∨ c = 'm') : isSpace c = false := by
  rcases h with h | h <;> subst h <;> decide

theorem mchar_ne_dot {c : Char} (h : c = 'M' ∨ c = 'm') : c ≠ '.' := by
  rcases h with h | h <;> subst h <;> decide

/-! ## The MHz regex matcher agrees with its declarative reading -/

theorem mhzTail_iff (rest : List Char) :
    mhzTail rest = true ↔
    ∃ ws c1 c2 c3 tail, rest = ws ++ c1 :: c2 :: c3 :: tail ∧
      (∀ c ∈ ws, isSpace c = true) ∧ isMHzLit c1 c2 c3 := by
  constructor
  · intro h
    unfold mhzTail at h
    split at h
    next c1 c2 c3 tail heq =>
      refine ⟨rest.takeWhile isSpace, c1, c2, c3, tail, ?_, ?_, ?_⟩
      · conv_lhs => rw [← List.takeWhile_append_dropWhile (p := isSpace) (l := rest)]
        rw [heq]
      · exact fun c hc => List.mem_takeWhile_imp hc
      · simp only [Bool.and_eq_true, Bool.or_eq_true, decide_eq_true_eq] at h
        exact ⟨h.1.1, h.1.2, h.2⟩
    next => exact absurd h (by simp)
  · rintro ⟨ws, c1, c2, c3, tail, rfl, hws, hm⟩
    unfold mhzTail
    rw [dropWhile_all_append isSpace ws c1 (c2 :: c3 :: tail) hws (mchar_not_space hm.1)]
    simp only [Bool.and_eq_true, Bool.or_eq_true, decide_eq_true_eq]
    exact ⟨⟨hm.1, hm.2.1⟩, hm.2.2⟩

theorem mhzGroup_append (cs : List Char) : (mhzGroup cs).1 ++ (mhzGroup cs).2 = cs := by
  unfold mhzGroup
  split
  next r2 heq =>
    split
    · show cs.takeWhile isDigit ++ cs.dropWhile isDigit = cs
      exact List.takeWhile_append_dropWhile isDigit cs
    · show (cs.takeWhile isDigit ++ '.' :: r2.takeWhile isDigit) ++ r2.dropWhile isDigit = cs
      rw [List.append_assoc, List.cons_append, List.takeWhile_append_dropWhile]
      rw [← heq, List.takeWhile_append_dropWhile]
  next =>
    show cs.takeWhile isDigit ++ cs.dropWhile isDigit = cs
    exact List.takeWhile_append_dropWhile isDigit cs

theorem mhzGroup_spec (cs : List Char) (hne : (cs.takeWhile isDigit).isEmpty = false) :
    decGroupSpec (mhzGroup cs).1 := by
  have hd : ∀ c ∈ cs.takeWhile isDigit, isDigit c = true :=
    fun c hc => List.mem_takeWhile_imp hc
  have hdne : cs.takeWhile isDigit ≠ [] := by
    intro h; rw [h] at hne; simp at hne
  unfold mhzGroup
  split
  next r2 heq =>
    split
    · show decGroupSpec (cs.takeWhile isDigit)
      exact Or.inl ⟨hdne, hd⟩
    next hf =>
      show decGroupSpec (cs.takeWhile isDigit ++ '.' :: r2.takeWhile isDigit)
      refine Or.inr ⟨cs.takeWhile isDigit, r2.takeWhile isDigit, rfl, hdne, hd, ?_, ?_⟩
      · intro h; rw [h] at hf; simp at hf
      · exact fun c hc => List.mem_takeWhile_imp hc
  next =>
    show decGroupSpec (cs.takeWhile isDigit)
    exact Or.inl ⟨hdne, hd⟩

/-- A nondigit-nondot head for the remainder after the group: the first
character of `ws ++ c1 :: tl` is never a digit and never a dot. -/
theorem rest_head_shape (ws : List Char) (c1 : Char) (tl : List Char)
    (hws : ∀ c ∈ ws, isSpace c = true) (hc1 : c1 = 'M' ∨ c1 = 'm') :
    ∃ a A, ws ++ c1 :: tl = a :: A ∧ isDigit a = false ∧ a ≠ '.' := by
  cases ws with
  | nil => exact ⟨c1, tl, rfl, mchar_not_digit hc1, mchar_ne_dot hc1⟩
  | cons w ws' =>
    have hw : isSpace w = true := hws w (by simp)
    exact ⟨w, ws' ++ c1 :: tl, rfl, isSpace_not_digit hw, isSpace_ne_dot hw⟩

theorem mhzGroup_of_spec (g ws : List Char) (c1 : Char) (tl : List Char)
    (hg : decGroupSpec g) (hws : ∀ c ∈ ws, isSpace c = true)
    (hc1 : c1 = 'M' ∨ c1 = 'm') :
    mhzGroup (g ++ (ws ++ c1 :: tl)) = (g, ws ++ c1 :: tl) := by
  obtain ⟨a, A, hA, haD, haDot⟩ := rest_head_shape ws c1 tl hws hc1
  rw [hA]
  rcases hg with ⟨hne, hdig⟩ | ⟨d, f, rfl, hdne, hddig, hfne, hfdig⟩
  · -- pure digit group
    have htw : (g ++ a :: A).takeWhile isDigit = g :=
      takeWhile_all_append isDigit g a A hdig haD
    have hdw : (g ++ a :: A).dropWhile isDigit = a :: A :=
      dropWhile_all_append isDigit g a A hdig haD
    unfold mhzGroup
    rw [htw, hdw]
    split
    next r2 heq => exact absurd (List.cons.injEq .. ▸ heq).1 haDot
    next => rfl
  · -- dotted group d ++ '.' :: f
    have hassoc : (d ++ '.' :: f) ++ a :: A = d ++ '.' :: (f ++ a :: A) := by
      simp
    have htw : ((d ++ '.' :: f) ++ a :: A).takeWhile isDigit = d := by
      rw [hassoc]
      exact takeWhile_all_append isDigit d '.' (f ++ a :: A) hddig (by decide)
    have hdw : ((d ++ '.' :: f) ++ a :: A).dropWhile isDigit = '.' :: (f ++ a :: A) := by
      rw [hassoc]
      exact dropWhile_all_append isDigit d '.' (f ++ a :: A) hddig (by decide)
    have hftw : (f ++ a :: A).takeWhile isDigit = f :=
      takeWhile_all_append isDigit f a A hfdig haD
    have hfdw : (f ++ a :: A).dropWhile isDigit = a :: A :=
      dropWhile_all_append isDigit f a A hfdig haD
    unfold mhzGroup
    rw [htw, hdw]
    split
    next r2 heq =>
      have hr2 : r2 = f ++ a :: A := ((List.cons.injEq ..).mp heq).2.symm
      subst hr2
      rw [hftw, hfdw]
      have : f.isEmpty = false := by
        cases f with
        | nil => exact absurd rfl hfne
        | cons x xs => rfl
      rw [this]
      rfl
    next hnc =>
      exact absurd rfl (hnc (f ++ a :: A))

theorem matchMHzAt_iff (cs g : List Char) :
    matchMHzAt cs = some g ↔ specMHzAt cs g := by
  constructor
  · intro h
    unfold matchMHzAt at h
    split at h
    · exact absurd h (by simp)
    next hne =>
      split at h
      next ht =>
        have hg : (mhzGroup cs).1 = g := by
          injection h
        obtain ⟨ws, c1, c2, c3, tail, htl, hws, hm⟩ := (mhzTail_iff (mhzGroup cs).2).mp ht
        refine ⟨ws, c1, c2, c3, tail, ?_, ?_, hws, hm⟩
        · rw [← mhzGroup_append cs, hg, htl, List.append_assoc]
        · rw [← hg]
          exact mhzGroup_spec cs (by simpa using hne)
      · exact absurd h (by simp)
  · rintro ⟨ws, c1, c2, c3, rest, rfl, hg, hws, hm⟩
    rw [List.append_assoc]
    have hgrp := mhzGroup_of_spec g ws c1 (c2 :: c3 :: rest) hg hws hm.1
    have hne : (g ++ (ws ++ c1 :: c2 :: c3 :: rest)).takeWhile isDigit ≠ [] := by
      rcases hg with ⟨hgne, hdig⟩ | ⟨d, f, hgeq, hdne, hddig, _, _⟩
      · cases g with
        | nil => exact absurd rfl hgne
        | cons x xs =>
          have hx : isDigit x = true := hdig x (by simp)
          simp [List.takeWhile_cons, hx]
      · subst hgeq
        cases d with
        | nil => exact absurd rfl hdne
        | cons x xs =>
          have hx : isDigit x = true := hddig x (by simp)
          simp [List.takeWhile_cons, hx]
    unfold matchMHzAt
    rw [if_neg (by simpa using hne)]
    rw [hgrp]
    have ht : mhzTail (ws ++ c1 :: c2 :: c3 :: rest) = true :=
      (mhzTail_iff _).mpr ⟨ws, c1, c2, c3, rest, rfl, hws, hm⟩
    rw [ht]
    rfl

theorem specMHzAt_nil (g : List Char) : ¬ specMHzAt [] g := by
  rintro ⟨ws, c1, c2, c3, rest, heq, -, -, -⟩
  have := congrArg List.length heq
  simp at this
  omega

theorem searchMHz_none_iff (cs : List Char) :
    searchMHz cs = none ↔ ∀ i g, ¬ specMHzAt (cs.drop i) g := by
  induction cs with
  | nil =>
    simp only [searchMHz, List.drop_nil]
    exact ⟨fun _ i g => specMHzAt_nil g, fun _ => trivial⟩
  | cons c rest ih =>
    constructor
    · intro h i g
      unfold searchMHz at h
      split at h
      next g' heq => exact absurd h (by simp)
      next heq =>
        match i with
        | 0 =>
          intro hs
          exact absurd ((matchMHzAt_iff (c :: rest) g).mpr hs) (by simp [heq])
        | i + 1 =>
          simp only [List.drop_succ_cons]
          exact ih.mp h i g
    · intro h
      unfold searchMHz
      split
      next g' heq =>
        exact absurd ((matchMHzAt_iff (c :: rest) g').mp heq) (h 0 g')
      next heq =>
        exact ih.mpr (fun i g => by simpa using h (i + 1) g)

theorem searchMHz_some (cs g : List Char) (h : searchMHz cs = some g) :
    ∃ i, specMHzAt (cs.drop i) g ∧ ∀ j, j < i → ∀ g', ¬ specMHzAt (cs.drop j) g' := by
  induction cs with
  | nil => exact absurd h (by simp [searchMHz])
  | cons c rest ih =>
    unfold searchMHz at h
    split at h
    next g' heq =>
      obtain rfl : g' = g := by injection h
      exact ⟨0, (matchMHzAt_iff (c :: rest) _).mp heq, fun j hj => absurd hj (by omega)⟩
    next heq =>
      obtain ⟨i, hi, hmin⟩ := ih h
      refine ⟨i + 1, by simpa using hi, ?_⟩
      intro j hj g'
      match j with
      | 0 =>
        intro hs
        exact absurd ((matchMHzAt_iff (c :: rest) g').mpr hs) (by simp [heq])
      | j + 1 =>
        simp only [List.drop_succ_cons]
        exact hmin j (by omega) g'

theorem ratOfDecimal_digits (g : List Char) (h : ∀ c ∈ g, isDigit c = true) :
    ratOfDecimal g = decVal g := by
  have htw : g.takeWhile isDigit = g := List.takeWhile_eq_self_iff.mpr h
  have hdrop : g.drop (g.length + 1) = [] := List.drop_eq_nil_of_le (by omega)
  unfold ratOfDecimal
  simp only [htw, hdrop]
  norm_num [decVal]

/-- C7: `extractFrequencyMHz` returns the value of the first (leftmost)
occurrence of a decimal number followed by optional whitespace and `MHz`
(case-insensitive), and null when no such occurrence exists; in
particular "... 3200 MHz ..." yields 3200.0 and "no frequency here"
yields null. -/
theorem c7_extract_frequency :
    extractFrequencyMHz "... 3200 MHz ..." = some (3200 : ℚ) ∧
    extractFrequencyMHz "no frequency here" = none ∧
    (∀ s : String, extractFrequencyMHz s = none ↔ ∀ i g, ¬ specMHzAt (s.data.drop i) g) ∧
    (∀ (s : String) (q : ℚ), extractFrequencyMHz s = some q →
      ∃ i g, specMHzAt (s.data.drop i) g ∧ q = ratOfDecimal g ∧
        ∀ j, j < i → ∀ g', ¬ specMHzAt (s.data.drop j) g') := by
  refine ⟨?_, ?_, ?_, ?_⟩
  · have h : searchMHz ("... 3200 MHz ...").data = some ['3', '2', '0', '0'] := by decide
    unfold extractFrequencyMHz
    rw [h]
    simp only [Option.map]
    rw [ratOfDecimal_digits _ (by decide)]
    norm_num [show decVal ['3', '2', '0', '0'] = 3200 from by decide]
  · have h : searchMHz ("no frequency here").data = none := by decide
    unfold extractFrequencyMHz
    rw [h]
    rfl
  · intro s
    unfold extractFrequencyMHz
    rw [Option.map_eq_none']
    exact searchMHz_none_iff s.data
  · intro s q h
    unfold extractFrequencyMHz at h
    obtain ⟨g, hg, hq⟩ := Option.map_eq_some'.mp h
    obtain ⟨i, hi, hmin⟩ := searchMHz_some s.data g hg
    exact ⟨i, g, hi, hq.symm, hmin⟩

/-- C7 witness: the positive branch applied to the concrete input "5MHz". -/
theorem c7_witness :
    ∃ i g, specMHzAt (("5MHz" : String).data.drop i) g ∧ (5 : ℚ) = ratOfDecimal g ∧
      ∀ j, j < i → ∀ g', ¬ specMHzAt (("5MHz" : String).data.drop j) g' := by
  apply c7_extract_frequency.2.2.2 "5MHz" 5
  have h : searchMHz ("5MHz" : String).data = some ['5'] := by decide
  unfold extractFrequencyMHz
  rw [h]
  simp only [Option.map]
  rw [ratOfDecimal_digits _ (by decide)]
  norm_num [show decVal ['5'] = 5 from by decide]

/-- C6: the pagination detector returns 1 when the pagination control is
absent; otherwise it returns the maximum over the purely numeric link
labels, or 1 when none is numeric; labels {"1","2","…","5"} yield 5. -/
theorem c6_detect_max_pages (d : Doc) :
    (d.paginationLinks = none → detect_max_pages d = 1) ∧
    (∀ ls, d.paginationLinks = some ls →
      ((ls.filterMap labelNum = [] → detect_max_pages d = 1) ∧
       (∀ n ∈ ls.filterMap labelNum, n ≤ detect_max_pages d) ∧
       (ls.filterMap labelNum ≠ [] → detect_max_pages d ∈ ls.filterMap labelNum))) ∧
    (d.paginationLinks = some ["1", "2", "…", "5"] → detect_max_pages d = 5) := by
  refine ⟨?_, ?_, ?_⟩
  · intro h
    unfold detect_max_pages
    rw [h]
  · intro ls hls
    have hmono : ∀ a b c : Nat, max b c ≤ a ↔ b ≤ a ∧ c ≤ a := fun a b c => Nat.max_le
    refine ⟨?_, ?_, ?_⟩
    · intro h
      unfold detect_max_pages
      simp only [hls, h]
      rfl
    · intro n hn
      unfold detect_max_pages
      simp only [hls]
      rcases hmax : (ls.filterMap labelNum).max? with _ | m
      · rw [List.max?_eq_none_iff] at hmax
        rw [hmax] at hn
        exact absurd hn (by simp)
      · simp only [hmax]
        exact (List.max?_le_iff hmono hmax).mp (Nat.le_refl m) n hn
    · intro hne
      unfold detect_max_pages
      simp only [hls]
      rcases hmax : (ls.filterMap labelNum).max? with _ | m
      · rw [List.max?_eq_none_iff] at hmax
        exact absurd hmax hne
      · simp only [hmax]
        exact List.max?_mem (fun a b => max_choice a b) hmax
  · intro h
    unfold detect_max_pages
    rw [h]
    decide

/-- C6 witness: the concrete pagination control {"1","2","…","5"}. -/
theorem c6_witness :
    detect_max_pages { paginationLinks := some ["1", "2", "…", "5"], v4table := none, innerBlocks := [] } = 5 :=
  (c6_detect_max_pages _).2.2 rfl

/-- C2: a 6-cell row with the timestamp marker and parseable score cells
yields exactly one record with Schema "v4" and both scores as integers; a
row whose cell count differs from 6 yields no record. -/
theorem c2_parse_v4_row :
    (∀ (c0 c1 c2 c3 c4 c5 : Cell) (n1 n2 : Nat),
      c0.hasTimestampSpan = true →
      to_int (oneline c4.text) = some n1 →
      to_int (oneline c5.text) = some n2 →
      ∃ r, parse_v4_row ⟨[c0, c1, c2, c3, c4, c5]⟩ = some r ∧
        r.schema = "v4" ∧ r.single_core = some n1 ∧ r.multi_core = some n2) ∧
    (∀ tr : Row, tr.tds.length ≠ 6 → parse_v4_row tr = none) := by
  constructor
  · intro c0 c1 c2 c3 c4 c5 n1 n2 h0 h4 h5
    unfold parse_v4_row
    simp only [h0, Bool.not_true, Bool.false_eq_true, if_false]
    exact ⟨_, rfl, rfl, h4, h5⟩
  · intro tr h
    unfold parse_v4_row
    split
    next td0 td1 td2 td3 td4 td5 heq =>
      exact absurd (by rw [heq]; rfl) h
    next => rfl

/-- C2 witness: a timestamped 6-cell row with scores "1,234" and "5678",
and a 5-cell row. -/
theorem c2_witness :
    (∃ r, parse_v4_row ⟨[{ cEmpty with hasTimestampSpan := true }, cEmpty, cEmpty, cEmpty,
        { cEmpty with text := "1,234" }, { cEmpty with text := "5678" }]⟩ = some r ∧
      r.schema = "v4" ∧ r.single_core = some 1234 ∧ r.multi_core = some 5678) ∧
    parse_v4_row ⟨[cEmpty, cEmpty, cEmpty, cEmpty, cEmpty]⟩ = none := by
  constructor
  · exact c2_parse_v4_row.1 _ _ _ _ _ _ 1234 5678 rfl (by decide) (by decide)
  · exact c2_parse_v4_row.2 _ (by decide)

/-- C1 counterexample: the legacy v4 row parser performs no
System/Result-URL validity check: a 6-cell row with a timestamp marker
but an empty system cell and no link still yields a record whose System
and Result URL are both empty. -/
theorem c1_counterexample :
    ¬ (∀ (tr : Row) (r : RecordCPU), parse_v4_row tr = some r →
        (r.system ≠ "" ∨ r.result_url ≠ "")) := by
  intro h
  have hr : parse_v4_row rowNoSystem =
      some { uploaded := "t", system := "", cpu_details := "", frequency_mhz := none,
             cores := none, platform := "", user := "", single_core := none,
             multi_core := none, result_url := "", schema := "v4" } := by decide
  rcases h rowNoSystem _ hr with h' | h' <;> exact h' rfl

theorem emitCPU_some {d r : RecordCPU} (h : emitCPU d = some r) :
    r = d ∧ (d.system ≠ "" ∨ d.result_url ≠ "") := by
  unfold emitCPU at h
  split at h
  next => exact absurd h (by simp)
  next hcond =>
    refine ⟨(Option.some_inj.mp h).symm, ?_⟩
    by_cases hs : d.system = ""
    · by_cases hu : d.result_url = ""
      · exact absurd (by simp [hs, hu]) hcond
      · exact Or.inr hu
    · exact Or.inl hs

theorem emitGPU_some {d r : RecordGPU} (h : emitGPU d = some r) :
    r = d ∧ (d.system ≠ "" ∨ d.result_url ≠ "") := by
  unfold emitGPU at h
  split at h
  next => exact absurd h (by simp)
  next hcond =>
    refine ⟨(Option.some_inj.mp h).symm, ?_⟩
    by_cases hs : d.system = ""
    · by_cases hu : d.result_url = ""
      · exact absurd (by simp [hs, hu]) hcond
      · exact Or.inr hu
    · exact Or.inl hs

/-- C1 (amended): the two card parsers (v6 CPU and v6 GPU-compute) only
emit records with a non-empty System text or a non-empty Result URL; the
legacy-table CPU parser has no such check. -/
theorem c1_card_record_validity (inner : InnerBlock) :
    (∀ r, parse_v6_cpu_block inner = some r → (r.system ≠ "" ∨ r.result_url ≠ "")) ∧
    (∀ g, parse_v6_compute_block inner = some g → (g.system ≠ "" ∨ g.result_url ≠ "")) := by
  constructor
  · intro r hr
    unfold parse_v6_cpu_block at hr
    obtain ⟨rfl, hv⟩ := emitCPU_some hr
    exact hv
  · intro g hg
    unfold parse_v6_compute_block at hg
    obtain ⟨rfl, hv⟩ := emitGPU_some hg
    exact hv

/-- C1 witness: the card parsers applied to the concrete fixtures. -/
theorem c1_witness :
    (∃ r, parse_v6_cpu_block blockCpu = some r ∧ (r.system ≠ "" ∨ r.result_url ≠ "")) ∧
    (∃ g, parse_v6_compute_block blockCompute = some g ∧ (g.system ≠ "" ∨ g.result_url ≠ "")) := by
  constructor
  · rcases hr : parse_v6_cpu_block blockCpu with _ | r
    · exact absurd hr (by decide)
    · exact ⟨r, rfl, (c1_card_record_validity blockCpu).1 r hr⟩
  · rcases hg : parse_v6_compute_block blockCompute with _ | g
    · exact absurd hg (by decide)
    · exact ⟨g, rfl, (c1_card_record_validity blockCompute).2 g hg⟩

/-- C4 counterexample: three consecutive 204 responses are non-200, yet
`get_soup` raises nothing — `raise_for_status` is a no-op below 400, so
the function returns Python `None` instead of an error. -/
theorem c4_counterexample :
    ¬ (∀ f : Nat → Nat × String, (∀ i, i < 3 → (f i).1 ≠ 200) →
        ∃ s, get_soup f = FetchResult.raised s) := by
  intro h
  obtain ⟨s, hs⟩ := h (fun _ => (204, "")) (fun i _ => by simp)
  have hn : get_soup (fun _ => ((204 : Nat), "")) = FetchResult.pyNone := by decide
  rw [hn] at hs
  exact FetchResult.noConfusion hs

/-- C4 (amended): `get_soup` returns a parsed document iff one of the 3
attempts returns status 200; when all 3 are non-200 it raises an error
carrying the final status only if that status is a 4xx/5xx, and otherwise
returns Python `None` (no document, no raised error). -/
theorem c4_get_soup (f : Nat → Nat × String) :
    ((∃ i, i < 3 ∧ (f i).1 = 200) ↔ ∃ b, get_soup f = FetchResult.doc b) ∧
    ((∀ i, i < 3 → (f i).1 ≠ 200) →
      ((400 ≤ (f 2).1 ∧ (f 2).1 < 600) → get_soup f = FetchResult.raised (f 2).1) ∧
      (¬ (400 ≤ (f 2).1 ∧ (f 2).1 < 600) → get_soup f = FetchResult.pyNone)) := by
  by_cases h0 : (f 0).1 = 200
  · refine ⟨⟨fun _ => ⟨(f 0).2, by simp [get_soup, h0]⟩, fun _ => ⟨0, by omega, h0⟩⟩, ?_⟩
    intro hall
    exact absurd h0 (hall 0 (by omega))
  · by_cases h1 : (f 1).1 = 200
    · refine ⟨⟨fun _ => ⟨(f 1).2, by simp [get_soup, h0, h1]⟩, fun _ => ⟨1, by omega, h1⟩⟩, ?_⟩
      intro hall
      exact absurd h1 (hall 1 (by omega))
    · by_cases h2 : (f 2).1 = 200
      · refine ⟨⟨fun _ => ⟨(f 2).2, by simp [get_soup, h0, h1, h2]⟩, fun _ => ⟨2, by omega, h2⟩⟩, ?_⟩
        intro hall
        exact absurd h2 (hall 2 (by omega))
      · constructor
        · constructor
          · rintro ⟨i, hi, h200⟩
            interval_cases i <;> contradiction
          · rintro ⟨b, hb⟩
            rw [get_soup, if_neg h0, if_neg h1, if_neg h2] at hb
            split at hb <;> exact FetchResult.noConfusion hb
        · intro _
          constructor
          · intro hc
            rw [get_soup, if_neg h0, if_neg h1, if_neg h2,
              if_pos (by simp only [Bool.and_eq_true, decide_eq_true_eq]; exact hc)]
          · intro hc
            rw [get_soup, if_neg h0, if_neg h1, if_neg h2,
              if_neg (by simp only [Bool.and_eq_true, decide_eq_true_eq]; exact hc)]

/-- C4 witness: the amended theorem applied to three 204 responses and to
three 404 responses. -/
theorem c4_witness :
    get_soup (fun _ => ((204 : Nat), "")) = FetchResult.pyNone ∧
    get_soup (fun _ => ((404 : Nat), "")) = FetchResult.raised 404 := by
  constructor
  · exact ((c4_get_soup _).2 (fun i _ => by simp)).2 (by decide)
  · exact ((c4_get_soup _).2 (fun i _ => by simp)).1 (by decide)

/-- C5 counterexample: an unrecognized base URL does not abort before any
network call — page 1 is fetched (the trace is non-empty) before the
mode check raises the configuration error. -/
theorem c5_counterexample :
    modeOf "https://example.com/x" = none ∧
    (scrape "https://example.com/x" none (fun _ => emptyDoc)).1 ≠ [] ∧
    (scrape "https://example.com/x" none (fun _ => emptyDoc)).2 =
      Except.error "Unsupported base URL (expect /v6/compute, /v6/cpu, or /v4/cpu)." := by
  refine ⟨by decide, by decide, rfl⟩

/-- C5 (amended): for an unrecognized base URL the driver fetches page 1
exactly once and then raises the fatal configuration error; no further
page is fetched. -/
theorem c5_unrecognized_base (base : String) (mp : Option Int) (fetch : String → Doc)
    (h : modeOf base = none) :
    (scrape base mp fetch).1 = [page_url base 1] ∧
    (scrape base mp fetch).2 =
      Except.error "Unsupported base URL (expect /v6/compute, /v6/cpu, or /v4/cpu)." := by
  unfold scrape
  simp [h]

/-- C5 witness: the amended theorem at a concrete unrecognized base. -/
theorem c5_witness :
    (scrape "https://example.com/other" none (fun _ => emptyDoc)).1 =
      [page_url "https://example.com/other" 1] ∧
    (scrape "https://example.com/other" none (fun _ => emptyDoc)).2 =
      Except.error "Unsupported base URL (expect /v6/compute, /v6/cpu, or /v4/cpu)." :=
  c5_unrecognized_base _ _ _ (by decide)

theorem cellOf_eq (r : List (String × Val)) (c : String) :
    cellOf r c = (r.lookup c).getD Val.null := by
  unfold cellOf
  cases r.lookup c <;> rfl

/-- C3: a successful run persists a header equal to the fixed column list
of the active mode (11 columns, GPU set for the compute mode and CPU set
otherwise) and one row per accumulated record, in generation order, each
record projected onto the header order with missing keys filled by the
null placeholder. -/
theorem c3_scrape_output (base : String) (mp : Option Int) (fetch : String → Doc)
    (mode : String) (hm : modeOf base = some mode) :
    ∃ hdr rows, (scrape base mp fetch).2 = Except.ok (hdr, rows) ∧
      hdr = (if mode = "v6-compute" then gpu_cols else cpu_cols) ∧
      hdr.length = 11 ∧
      rows = ((List.range (pageCount mp (detect_max_pages (fetch (page_url base 1))))).flatMap
          (fun i => pageRecords mode (fetch (page_url base (i + 1))))).map
        (fun r => hdr.map (fun c => (r.lookup c).getD Val.null)) := by
  unfold scrape
  simp only [hm]
  refine ⟨_, _, rfl, rfl, ?_, ?_⟩
  · by_cases h : mode = "v6-compute" <;> simp [h, gpu_cols, cpu_cols]
  · simp only [List.flatMap_map]
    have h1 : (fun a : Nat => pageRecords mode
          (if a + 1 = 1 then fetch (page_url base 1) else fetch (page_url base (a + 1)))) =
        (fun i : Nat => pageRecords mode (fetch (page_url base (i + 1)))) := by
      funext p
      by_cases hp : p + 1 = 1
      · rw [if_pos hp, hp]
      · rw [if_neg hp]
    rw [h1]
    exact List.map_congr_left (fun r _ => List.map_congr_left (fun c _ => cellOf_eq r c))

/-- C3 witness: a concrete one-page v4 run. -/
theorem c3_witness :
    ∃ hdr rows, (scrape "https://b.com/v4/cpu" (some 1) (fun _ => emptyDoc)).2 =
      Except.ok (hdr, rows) ∧ hdr.length = 11 := by
  obtain ⟨hdr, rows, h1, _, h3, _⟩ :=
    c3_scrape_output "https://b.com/v4/cpu" (some 1) (fun _ => emptyDoc) "v4-cpu" (by decide)
  exact ⟨hdr, rows, h1, h3⟩

theorem v6_cpu_stat_step_schema (d : RecordCPU) (c : StatCol) :
    (v6_cpu_stat_step d c).schema = d.schema := by
  unfold v6_cpu_stat_step
  dsimp only
  repeat' split
  all_goals rfl

theorem v6_cpu_sys_schema (d : RecordCPU) (sc : Option SysCol) :
    (v6_cpu_sys d sc).schema = d.schema := by
  unfold v6_cpu_sys
  dsimp only
  repeat' split
  all_goals rfl

theorem foldl_cpu_schema (cols : List StatCol) (d : RecordCPU) :
    (cols.foldl v6_cpu_stat_step d).schema = d.schema := by
  induction cols generalizing d with
  | nil => rfl
  | cons a t ih => rw [List.foldl_cons, ih, v6_cpu_stat_step_schema]

theorem v6_compute_stat_step_schema (d : RecordGPU) (c : StatCol) :
    (v6_compute_stat_step d c).schema = d.schema := by
  unfold v6_compute_stat_step
  dsimp only
  repeat' split
  all_goals rfl

theorem v6_compute_sys_schema (d : RecordGPU) (sc : Option SysCol) :
    (v6_compute_sys d sc).schema = d.schema := by
  unfold v6_compute_sys
  dsimp only
  repeat' split
  all_goals rfl

theorem foldl_compute_schema (cols : List StatCol) (d : RecordGPU) :
    (cols.foldl v6_compute_stat_step d).schema = d.schema := by
  induction cols generalizing d with
  | nil => rfl
  | cons a t ih => rw [List.foldl_cons, ih, v6_compute_stat_step_schema]

/-- C8: the Schema tag is a fixed constant per parser — "v4" for the
legacy parser, "v6" for the card CPU parser (while the driver's mode
string for that case is "v6-cpu", a different string), and "v6-compute"
for the card GPU-compute parser. -/
theorem c8_schema_tags :
    (∀ (tr : Row) (r : RecordCPU), parse_v4_row tr = some r → r.schema = "v4") ∧
    (∀ (inner : InnerBlock) (r : RecordCPU), parse_v6_cpu_block inner = some r →
      r.schema = "v6") ∧
    (∀ (inner : InnerBlock) (g : RecordGPU), parse_v6_compute_block inner = some g →
      g.schema = "v6-compute") ∧
    (∀ base : String, is_v6_cpu base = true → is_v6_compute base = false →
      modeOf base = some "v6-cpu") ∧
    ("v6-cpu" : String) ≠ "v6" := by
  refine ⟨?_, ?_, ?_, ?_, by decide⟩
  · intro tr r h
    unfold parse_v4_row at h
    split at h
    next td0 td1 td2 td3 td4 td5 heq =>
      split at h
      · exact absurd h (by simp)
      · exact (Option.some_inj.mp h) ▸ rfl
    next => exact absurd h (by simp)
  · intro inner r h
    unfold parse_v6_cpu_block at h
    obtain ⟨rfl, -⟩ := emitCPU_some h
    rw [foldl_cpu_schema, v6_cpu_sys_schema]
    rfl
  · intro inner g h
    unfold parse_v6_compute_block at h
    obtain ⟨rfl, -⟩ := emitGPU_some h
    rw [foldl_compute_schema, v6_compute_sys_schema]
    rfl
  · intro base h1 h2
    unfold modeOf
    rw [h1, h2]
    rfl

/-- C8 witness: concrete inputs for each parser and the driver mode. -/
theorem c8_witness :
    (∃ r, parse_v4_row rowNoSystem = some r ∧ r.schema = "v4") ∧
    (∃ r, parse_v6_cpu_block blockCpu = some r ∧ r.schema = "v6") ∧
    (∃ g, parse_v6_compute_block blockCompute = some g ∧ g.schema = "v6-compute") ∧
    modeOf "https://browser.geekbench.com/v6/cpu" = some "v6-cpu" := by
  refine ⟨?_, ?_, ?_, c8_schema_tags.2.2.2.1 _ (by decide) (by decide)⟩
  · rcases h : parse_v4_row rowNoSystem with _ | r
    · exact absurd h (by decide)
    · exact ⟨r, rfl, c8_schema_tags.1 rowNoSystem r h⟩
  · rcases h : parse_v6_cpu_block blockCpu with _ | r
    · exact absurd h (by decide)
    · exact ⟨r, rfl, c8_schema_tags.2.1 blockCpu r h⟩
  · rcases h : parse_v6_compute_block blockCompute with _ | g
    · exact absurd h (by decide)
    · exact ⟨g, rfl, c8_schema_tags.2.2.1 blockCompute g h⟩

theorem compute_step_fields (d : RecordGPU) (c : StatCol) :
    (isScoreCol c = false →
      (v6_compute_stat_step d c).score_label = d.score_label ∧
      (v6_compute_stat_step d c).compute_score = d.compute_score) ∧
    (∀ l, c.label = some l → isScoreCol c = true →
      (v6_compute_stat_step d c).score_label = oneline l ∧
      (v6_compute_stat_step d c).compute_score = _to_int (_text c.scoreVal)) := by
  rcases hc : c.label with _ | l
  · refine ⟨fun _ => ?_, fun l hl _ => Option.noConfusion hl⟩
    unfold v6_compute_stat_step
    rw [hc]
    exact ⟨rfl, rfl⟩
  · have hiso : isScoreCol c =
        (!(oneline l = "Uploaded" || oneline l = "Platform" || oneline l = "API") &&
          isSuffixCh "Score".data (oneline l).data) := by
      unfold isScoreCol
      rw [hc]
    by_cases htriple :
        (oneline l = "Uploaded" || oneline l = "Platform" || oneline l = "API") = true
    · have hscore : isScoreCol c = false := by
        rw [hiso, htriple]
        rfl
      refine ⟨fun _ => ?_, fun l' hl' htrue => absurd (hscore ▸ htrue) (by simp)⟩
      unfold v6_compute_stat_step
      rw [hc]
      dsimp only [_text]
      rw [if_pos htriple]
      split_ifs <;> exact ⟨rfl, rfl⟩
    · have hfalse :
          (oneline l = "Uploaded" || oneline l = "Platform" || oneline l = "API") = false :=
        Bool.not_eq_true _ ▸ eq_false_of_ne_true htriple
      by_cases hsuf : isSuffixCh "Score".data (oneline l).data = true
      · have hscore : isScoreCol c = true := by rw [hiso, hfalse, hsuf]; rfl
        constructor
        · intro hno
          exact absurd (hscore.symm.trans hno) (by simp)
        · intro l' hl' _
          obtain rfl : l = l' := Option.some_inj.mp hl'
          unfold v6_compute_stat_step
          rw [hc]
          dsimp only [_text]
          rw [if_neg (by rw [hfalse]; simp), if_pos hsuf]
          exact ⟨rfl, rfl⟩
      · have hsuf' : isSuffixCh "Score".data (oneline l).data = false :=
          Bool.not_eq_true _ ▸ eq_false_of_ne_true hsuf
        have hscore : isScoreCol c = false := by rw [hiso, hfalse, hsuf']; rfl
        refine ⟨fun _ => ?_, fun l' hl' htrue => absurd (hscore ▸ htrue) (by simp)⟩
        unfold v6_compute_stat_step
        rw [hc]
        dsimp only [_text]
        rw [if_neg (by rw [hfalse]; simp), if_neg (by rw [hsuf']; simp)]
        exact ⟨rfl, rfl⟩

theorem foldl_compute_last_score (cols : List StatCol) (d : RecordGPU) :
    ((cols.filter isScoreCol = []) →
      (cols.foldl v6_compute_stat_step d).score_label = d.score_label ∧
      (cols.foldl v6_compute_stat_step d).compute_score = d.compute_score) ∧
    (∀ c l, (cols.filter isScoreCol).getLast? = some c → c.label = some l →
      (cols.foldl v6_compute_stat_step d).score_label = oneline l ∧
      (cols.foldl v6_compute_stat_step d).compute_score = _to_int (_text c.scoreVal)) := by
  induction cols generalizing d with
  | nil => exact ⟨fun _ => ⟨rfl, rfl⟩, fun c l h _ => by simp at h⟩
  | cons a t ih =>
    by_cases ha : isScoreCol a = true
    · constructor
      · intro hfil
        rw [List.filter_cons_of_pos ha] at hfil
        exact absurd hfil (by simp)
      · intro c l hlast hl
        rw [List.filter_cons_of_pos ha] at hlast
        rw [List.foldl_cons]
        rcases hft : t.filter isScoreCol with _ | ⟨x, xs⟩
        · rw [hft, List.getLast?_singleton] at hlast
          obtain rfl : a = c := Option.some_inj.mp hlast
          have hpres := (ih (v6_compute_stat_step d a)).1 hft
          have hstep := (compute_step_fields d a).2 l hl ha
          exact ⟨hpres.1.trans hstep.1, hpres.2.trans hstep.2⟩
        · rw [hft, List.getLast?_cons_cons] at hlast
          exact (ih (v6_compute_stat_step d a)).2 c l (by rw [hft]; exact hlast) hl
    · have ha' : isScoreCol a = false := Bool.not_eq_true _ ▸ eq_false_of_ne_true ha
      constructor
      · intro hfil
        rw [List.filter_cons_of_neg (by rw [ha']; simp)] at hfil
        rw [List.foldl_cons]
        have hpres := (ih (v6_compute_stat_step d a)).1 hfil
        have hstep := (compute_step_fields d a).1 ha'
        exact ⟨hpres.1.trans hstep.1, hpres.2.trans hstep.2⟩
      · intro c l hlast hl
        rw [List.filter_cons_of_neg (by rw [ha']; simp)] at hlast
        rw [List.foldl_cons]
        exact (ih (v6_compute_stat_step d a)).2 c l hlast hl

/-- C9: when a compute card contains several labelled columns whose label
ends in "Score", the emitted record's Score Label and Compute Score come
from the last such column in document order (each later one overwrites
the earlier). -/
theorem c9_last_score_wins (inner : InnerBlock) (r : RecordGPU) (c : StatCol) (l : String)
    (hp : parse_v6_compute_block inner = some r)
    (hlast : (inner.statCols.filter isScoreCol).getLast? = some c)
    (hl : c.label = some l) :
    r.score_label = oneline l ∧ r.compute_score = _to_int (_text c.scoreVal) := by
  unfold parse_v6_compute_block at hp
  obtain ⟨rfl, -⟩ := emitGPU_some hp
  exact (foldl_compute_last_score inner.statCols
    (v6_compute_sys v6ComputeInit inner.sysCol)).2 c l hlast hl

/-- C9 witness: a card with a "Metal Score" column followed by a
"Vulkan Score" column ends up carrying the Vulkan values. -/
theorem c9_witness :
    ∃ r, parse_v6_compute_block blockCompute = some r ∧
      r.score_label = "Vulkan Score" ∧ r.compute_score = some 200 := by
  rcases hp : parse_v6_compute_block blockCompute with _ | r
  · exact absurd hp (by decide)
  · have h := c9_last_score_wins blockCompute r
      { label := some "Vulkan Score", textVal := none, scoreVal := some "200", userA := none }
      "Vulkan Score" hp (by decide) rfl
    refine ⟨r, rfl, ?_, ?_⟩
    · rw [h.1]; decide
    · rw [h.2]; decide

/-- C10: the element-text helper is total — a missing element yields the
empty string, never an exception or null — so a card text field whose
value sub-element is absent is set to "" (shown here for the "Uploaded"
column of the card CPU parser). -/
theorem c10_text_default :
    _text none = "" ∧
    (∀ (d : RecordCPU) (col : StatCol) (l : String),
      col.label = some l → oneline l = "Uploaded" → col.textVal = none →
      (v6_cpu_stat_step d col).uploaded = "") := by
  refine ⟨rfl, ?_⟩
  intro d col l hl hkey hval
  unfold v6_cpu_stat_step
  rw [hl]
  dsimp only [_text]
  rw [hkey, hval]
  rw [if_pos (by simp)]
  rw [if_pos rfl]
  dsimp only [_text]
  split <;> rfl

/-- C10 witness: an "Uploaded" column with no value element. -/
theorem c10_witness :
    _text none = "" ∧
    (v6_cpu_stat_step v6CpuInit
      { label := some "Uploaded", textVal := none, scoreVal := none, userA := none }).uploaded = "" :=
  ⟨c10_text_default.1,
   c10_text_default.2 v6CpuInit _ "Uploaded" rfl (by decide) rfl⟩
